import Mathlib

/-!
Verification of the journal-automation pipeline against its specification.

The Python sources are shallowly embedded: pure functions become Lean
functions over `List Char` / `String`; regular-expression scans are
hand-compiled to explicit character scanners that reproduce the regex
engine's left-to-right, non-overlapping `findall` semantics (greedy
quantifiers are resolved by maximal munch whenever backtracking cannot
produce a different overall match, which is argued case by case in the
comments); exceptions become `Except`; CPython float arithmetic on the
two tolerance comparisons (20 percent LOC tolerance, 0.3 blank-line
ratio) is modelled with exact rationals.
-/

namespace Journal

/-- Python `\s` / `str.strip` whitespace, restricted to the ASCII range
(the inputs under verification are ASCII). -/
def pyIsSpace (c : Char) : Bool :=
  c = ' ' || c = '\t' || c = '\n' || c = '\r' || c = Char.ofNat 11 || c = Char.ofNat 12

/-- Python `str.strip()` on a character list. -/
def pyStripList (l : List Char) : List Char :=
  ((l.dropWhile pyIsSpace).reverse.dropWhile pyIsSpace).reverse

/-- Python `str.strip()`. -/
def pyStrip (s : String) : String := String.mk (pyStripList s.toList)

/-- Python `str.lower()` (ASCII range). -/
def pyLower (s : String) : String := String.mk (s.toList.map Char.toLower)

/-- Match a literal character sequence at the head of the input, returning
the remainder on success. -/
def matchLit : List Char → List Char → Option (List Char)
  | [], rest => some rest
  | _ :: _, [] => none
  | c :: cs, d :: rest => if d = c then matchLit cs rest else none

/-- Match a literal case-insensitively (both sides lowered, ASCII). -/
def matchLitCI : List Char → List Char → Option (List Char)
  | [], rest => some rest
  | _ :: _, [] => none
  | c :: cs, d :: rest => if d.toLower = c.toLower then matchLitCI cs rest else none

/-- Numeric value of a (non-empty) digit run, as Python `int` does. -/
def digitsToNat (ds : List Char) : ℕ :=
  ds.foldl (fun a c => 10 * a + (c.toNat - 48)) 0

/-- Generic `re.findall` driver: at each position try `step`; on a match,
record its payload and resume after the match, otherwise advance one
character.  Every concrete `step` below consumes at least one character on
success, so fuel `l.length + 1` never runs out and the scan coincides with
the regex engine's non-overlapping left-to-right search. -/
def scanAux {α : Type} (step : List Char → Option (α × List Char)) :
    ℕ → List Char → List α
  | 0, _ => []
  | _ + 1, [] => []
  | fuel + 1, c :: cs =>
    match step (c :: cs) with
    | some (a, rest) => a :: scanAux step fuel rest
    | none => scanAux step fuel cs

/-- Run a scan over a whole character list. -/
def scanAll {α : Type} (step : List Char → Option (α × List Char)) (l : List Char) :
    List α :=
  scanAux step (l.length + 1) l

/-- `re.search` driver: first position (left to right) where `step` matches. -/
def searchAux {α : Type} (step : List Char → Option α) : List Char → Option α
  | [] => step []
  | c :: cs =>
    match step (c :: cs) with
    | some a => some a
    | none => searchAux step cs

/-! ### Accuracy-check scanner

Regex (per repository): ``  `~/code/REPO`\s*\(\s*(\d+)\s*commits?\s*\)  ``
with `REPO` escaped, i.e. literal.  After the literal, `\s*` and `\d+` are
greedy; since each is followed by a token its own character class cannot
match (an opening parenthesis, the letter c, a digit boundary),
backtracking can never produce an alternative overall match, so maximal
munch is exact. -/

/-- Try the repo-with-commit-count pattern at the current position.
`lit` is the leading literal (backquote, path, repo name, backquote). -/
def repoCountStep (lit : List Char) (l : List Char) : Option (ℕ × List Char) :=
  match matchLit lit l with
  | none => none
  | some r1 =>
    let r2 := r1.dropWhile pyIsSpace
    match matchLit ['('] r2 with
    | none => none
    | some r3 =>
      let r4 := r3.dropWhile pyIsSpace
      let ds := r4.takeWhile Char.isDigit
      if ds = [] then none
      else
        let r5 := (r4.dropWhile Char.isDigit).dropWhile pyIsSpace
        match matchLit "commit".toList r5 with
        | none => none
        | some r6 =>
          let r7 := match r6 with
            | 's' :: t => t
            | t => t
          let r8 := r7.dropWhile pyIsSpace
          match matchLit [')'] r8 with
          | none => none
          | some r9 => some (digitsToNat ds, r9)

/-- All commit counts stated for `repo` in the markdown, in order
(`re.findall` in `_check_accuracy`). -/
def accuracyMatches (repo : String) (md : String) : List ℕ :=
  scanAll (repoCountStep ("`~/code/" ++ repo ++ "`").toList) md.toList

/-- Try the total-commits pattern `- \*\*Total:\s*(\d+)\s*commits?\*\*`
at the current position. -/
def totalStep (l : List Char) : Option ℕ :=
  match matchLit "- **Total:".toList l with
  | none => none
  | some r1 =>
    let r2 := r1.dropWhile pyIsSpace
    let ds := r2.takeWhile Char.isDigit
    if ds = [] then none
    else
      let r3 := (r2.dropWhile Char.isDigit).dropWhile pyIsSpace
      match matchLit "commit".toList r3 with
      | none => none
      | some r4 =>
        let r5 := match r4 with
          | 's' :: t => t
          | t => t
        match matchLit "**".toList r5 with
        | none => none
        | some _ => some (digitsToNat ds)

/-- First "Total: N commits" occurrence (`re.search` in `_check_accuracy`). -/
def totalCommitsStated (md : String) : Option ℕ :=
  searchAux totalStep md.toList

/-! ### Completeness-check scanner: `re.search` of `##\s*REPO`. -/

/-- Match `\s*REPO` allowing any number of leading whitespace characters
(the regex tries the greedy run first, but for a mere existence test the
order of attempts is irrelevant). -/
def wsStarThenLit (lit : List Char) : List Char → Bool
  | [] => (matchLit lit []).isSome
  | c :: cs => (matchLit lit (c :: cs)).isSome || (pyIsSpace c && wsStarThenLit lit cs)

/-- Second half of the header test: one more hash sign then `\s*REPO`. -/
def hashWsLit (lit : List Char) : List Char → Bool
  | [] => false
  | c :: cs => c = '#' && wsStarThenLit lit cs

/-- Whether `##\s*REPO` occurs anywhere in the text. -/
def containsHeader (lit : List Char) : List Char → Bool
  | [] => false
  | c :: cs => (c = '#' && hashWsLit lit cs) || containsHeader lit cs

/-! ### Consistency-check scanner

Regex: `(?:LOC|lines|lines of code)[:\s]*(\d+(?:,\d+)*)`, IGNORECASE.
Alternatives are tried in order at each position; `[:\s]*` is greedy and
followed by a digit, so maximal munch is exact; the captured number is the
maximal `digits(,digits)*` run. -/

/-- Consume the `\d+(?:,\d+)*` capture starting at a digit: collect digit
characters, crossing a comma only when a digit follows it. -/
def numTail : List Char → List Char × List Char
  | [] => ([], [])
  | c :: cs =>
    if c.isDigit then
      let (ds, r) := numTail cs
      (c :: ds, r)
    else if c = ',' then
      match cs with
      | d :: _ =>
        if d.isDigit then numTail cs else ([], c :: cs)
      | [] => ([], [c])
  else ([], c :: cs)

/-- After a matched keyword: `[:\s]*` then the captured number. -/
def afterLocKeyword (l : List Char) : Option (ℕ × List Char) :=
  let l2 := l.dropWhile (fun c => c = ':' || pyIsSpace c)
  match l2 with
  | c :: _ =>
    if c.isDigit then
      let (ds, r) := numTail l2
      some (digitsToNat ds, r)
    else none
  | [] => none

/-- One alternative: case-insensitive keyword, then the number part. -/
def locAlt (kw : String) (l : List Char) : Option (ℕ × List Char) :=
  match matchLitCI kw.toList l with
  | none => none
  | some r => afterLocKeyword r

/-- Try the three alternatives in the regex's order at this position. -/
def locStep (l : List Char) : Option (ℕ × List Char) :=
  match locAlt "LOC" l with
  | some x => some x
  | none =>
    match locAlt "lines" l with
    | some x => some x
    | none => locAlt "lines of code" l

/-- All numbers stated next to a LOC keyword (`re.findall` in
`_check_consistency`). -/
def consistencyMatches (md : String) : List ℕ :=
  scanAll locStep md.toList

/-! ### Date scanner: `re.findall` of `(\d{4}-\d{2}-\d{2})`. -/

/-- Try the fixed-shape date pattern at the current position. -/
def dateStep (l : List Char) : Option (String × List Char) :=
  match l with
  | a :: b :: c :: d :: '-' :: e :: f :: '-' :: g :: h :: rest =>
    if a.isDigit && b.isDigit && c.isDigit && d.isDigit &&
        e.isDigit && f.isDigit && g.isDigit && h.isDigit then
      some (String.mk [a, b, c, d, '-', e, f, '-', g, h], rest)
    else none
  | _ => none

/-- All date-shaped substrings of the markdown. -/
def dateMatches (md : String) : List String :=
  scanAll dateStep md.toList

/-! ### Data model

A repository entry of the git-analysis dictionary (`repo_data.get` default
values are baked into the fields), and the day-level dictionary.  A Python
dict iterates in insertion order, so `repos` is an association list. -/

/-- One repo's entry in `git_data["repos"]`. -/
structure RepoData where
  commits : ℕ := 0
  loc_added : ℕ := 0
  deriving Repr, DecidableEq

/-- The `git_data` dictionary as consumed by `FactCheckingAgent`. -/
structure GitData where
  date : String := ""
  repos : List (String × RepoData) := []
  total_commits : ℕ := 0
  total_loc_added : ℕ := 0
  total_loc_deleted : ℕ := 0
  deriving Repr, DecidableEq

/-- The `{"passed": ..., "issues": [...], "corrections": [...]}` dict each
check returns.  None of the five checks ever creates a `warnings` key; the
field exists because `_compile_results` reads `check_result.get("warnings",
[])`, and is always empty for results produced by this module. -/
structure CheckResult where
  passed : Bool := true
  issues : List String := []
  corrections : List String := []
  warnings : List String := []
  deriving Repr, DecidableEq

/-! ### Accuracy check (`_check_accuracy`) -/

/-- Issue text for a repo whose commit count is absent from the markdown. -/
def missingIssue (name : String) : String :=
  "Repo " ++ name ++ ": Commit count missing from markdown"

/-- Issue text for a commit-count mismatch. -/
def mismatchIssue (name : String) (expected found : ℕ) : String :=
  "Repo " ++ name ++ ": Commit count mismatch (expected " ++ toString expected ++
    ", found " ++ toString found ++ ")"

/-- The inner `for match in matches` loop of `_check_accuracy`. -/
def accMatchStep (name : String) (expected : ℕ) (a : CheckResult) (m : ℕ) :
    CheckResult :=
  if m ≠ expected then
    { a with
      passed := false
      issues := a.issues ++ [mismatchIssue name expected m]
      corrections := a.corrections ++ ["Update " ++ name ++ " commit count to " ++
        toString expected] }
  else a

/-- The `if not matches and expected_commits > 0` branch of the per-repo
loop of `_check_accuracy`. -/
def accMissingStep (md : String) (a : CheckResult) (p : String × RepoData) :
    CheckResult :=
  if accuracyMatches p.1 md = [] ∧ p.2.commits > 0 then
    { a with
      passed := false
      issues := a.issues ++ [missingIssue p.1]
      corrections := a.corrections ++ ["Add commit count for " ++ p.1 ++ ": " ++
        toString p.2.commits ++ " commits"] }
  else a

/-- The body of the per-repo loop of `_check_accuracy`. -/
def accRepoStep (md : String) (a : CheckResult) (p : String × RepoData) :
    CheckResult :=
  (accuracyMatches p.1 md).foldl (accMatchStep p.1 p.2.commits)
    (accMissingStep md a p)

/-- Issue text for a total-commit-count mismatch. -/
def totalMismatchIssue (expected actual : ℕ) : String :=
  "Total commits mismatch (expected " ++ toString expected ++ ", found " ++
    toString actual ++ ")"

/-- The trailing "Total: N commits" comparison of `_check_accuracy`. -/
def accTotalStep (g : GitData) (md : String) (a : CheckResult) : CheckResult :=
  match totalCommitsStated md with
  | some actual =>
    if actual ≠ g.total_commits then
      { a with
        passed := false
        issues := a.issues ++ [totalMismatchIssue g.total_commits actual]
        corrections := a.corrections ++ ["Update total commit count to " ++
          toString g.total_commits] }
    else a
  | none => a

/-- `FactCheckingAgent._check_accuracy`. -/
def check_accuracy (g : GitData) (md : String) : CheckResult :=
  accTotalStep g md (g.repos.foldl (accRepoStep md) {})

/-! ### Completeness check (`_check_completeness`) -/

/-- The body of the per-repo loop of `_check_completeness`. -/
def compRepoStep (md : String) (a : CheckResult) (p : String × RepoData) :
    CheckResult :=
  if p.2.commits > 0 ∧ ¬containsHeader p.1.toList md.toList then
    { a with
      passed := false
      issues := a.issues ++ ["Repo " ++ p.1 ++ ": Missing section header"]
      corrections := a.corrections ++ ["Add section for " ++ p.1 ++ " with " ++
        toString p.2.commits ++ " commits"] }
  else a

/-- `FactCheckingAgent._check_completeness`. -/
def check_completeness (g : GitData) (md : String) : CheckResult :=
  g.repos.foldl (compRepoStep md) {}

/-! ### Consistency check (`_check_consistency`) -/

/-- Python renders `f"{n:,}"` with comma grouping; the exact rendering is
immaterial to every claim (issue texts are only tested for list membership
and emptiness), so the plain decimal rendering is used inside the issue. -/
def locIssue (total found : ℕ) : String :=
  "LOC inconsistency: Expected ~" ++ toString total ++ ", found " ++ toString found

/-- The `for match in loc_matches` loop body: `abs(found - total) >
total * 0.2`, stated with exact integer arithmetic as
`5*|found - total| > total` (CPython evaluates the right side as a
double within one part in 2^52 of the exact product, which cannot move a
comparison against an integer for any realistic line count). -/
def locMatchStep (total : ℕ) (a : CheckResult) (found : ℕ) : CheckResult :=
  if 5 * |(found : ℤ) - (total : ℤ)| > (total : ℤ) then
    { a with
      passed := false
      issues := a.issues ++ [locIssue total found] }
  else a

/-- The date-presence test of `_check_consistency` (`if expected_date and
expected_date not in dates_in_markdown`). -/
def consDateStep (g : GitData) (md : String) (a : CheckResult) : CheckResult :=
  if g.date ≠ "" ∧ g.date ∉ dateMatches md then
    { a with
      passed := false
      issues := a.issues ++ ["Date " ++ g.date ++ " not found in markdown"] }
  else a

/-- `FactCheckingAgent._check_consistency`. -/
def check_consistency (g : GitData) (md : String) : CheckResult :=
  consDateStep g md
    ((consistencyMatches md).foldl
      (locMatchStep (g.total_loc_added + g.total_loc_deleted)) {})

/-! ### Duplicate check (`_check_duplicates`) -/

/-- Python `markdown_content.split("\n")`. -/
def splitNl : List Char → List (List Char)
  | [] => [[]]
  | '\n' :: rest => [] :: splitNl rest
  | c :: rest =>
    match splitNl rest with
    | l :: ls => (c :: l) :: ls
    | [] => [[c]]

/-- The taxonomy alternation of the duplicate-commit pattern, in source
order: `feat|fix|refactor|chore|docs|style|test|perf`. -/
def commitKinds : List String :=
  ["feat", "fix", "refactor", "chore", "docs", "style", "test", "perf"]

/-- Try each taxonomy alternative followed by a colon.  No alternative is a
prefix of another (plus the mandatory colon), so at most one can match and
a failure after the colon cannot be rescued by a later alternative. -/
def commitKindSplit : List String → List Char → Option (List Char)
  | [], _ => none
  | k :: ks, l =>
    match matchLit (k ++ ":").toList l with
    | some t => some t
    | none => commitKindSplit ks l

/-- The anchored pattern
`^\s*-\s*(feat|fix|refactor|chore|docs|style|test|perf):\s*(.+)` applied
to one (newline-free) line; returns `commit_match.group(2).strip()`.
After the colon, `\s*(.+)` matches exactly when at least one character
remains (the engine backtracks the greedy `\s*` until `.+` gets one), and
the stripped capture is then the stripped remainder of the line. -/
def commitMatchText (line : List Char) : Option String :=
  match (line.dropWhile pyIsSpace) with
  | '-' :: rest =>
    match commitKindSplit commitKinds (rest.dropWhile pyIsSpace) with
    | some t => if t = [] then none else some (String.mk (pyStripList t))
    | none => none
  | _ => none

/-- Loop state of `_check_duplicates`: the accumulated result plus the
`section_headers` and `commit_messages` lists. -/
structure DupState where
  res : CheckResult := {}
  seenHeaders : List (List Char) := []
  seenCommits : List String := []
  deriving Repr, DecidableEq

/-- Issue text for a repeated section header. -/
def dupHeaderIssue (header : List Char) : String :=
  "Duplicate section header: " ++ String.mk header

/-- Issue text for a repeated commit line. -/
def dupCommitIssue (t : String) : String :=
  "Duplicate commit: " ++ t

/-- Header half of the per-line body of `_check_duplicates`:
`line.startswith("## ")`, then `line.strip()`, the duplicate test, then
the append to `section_headers`. -/
def dupHeaderStep (st : DupState) (line : List Char) : DupState :=
  if (matchLit "## ".toList line).isSome then
    { st with
      res :=
        if pyStripList line ∈ st.seenHeaders then
          { st.res with
            passed := false
            issues := st.res.issues ++ [dupHeaderIssue (pyStripList line)]
            corrections := st.res.corrections ++
              ["Remove duplicate section: " ++ String.mk (pyStripList line)] }
        else st.res
      seenHeaders := st.seenHeaders ++ [pyStripList line] }
  else st

/-- Commit-bullet half of the per-line body of `_check_duplicates`. -/
def dupCommitStep (st : DupState) (line : List Char) : DupState :=
  match commitMatchText line with
  | some t =>
    { st with
      res :=
        if t ∈ st.seenCommits then
          { st.res with
            passed := false
            issues := st.res.issues ++ [dupCommitIssue t]
            corrections := st.res.corrections ++
              ["Remove duplicate commit entry: " ++ t] }
        else st.res
      seenCommits := st.seenCommits ++ [t] }
  | none => st

/-- The per-line body of `_check_duplicates`: header test first, then the
commit-bullet test. -/
def dupLineStep (st : DupState) (line : List Char) : DupState :=
  dupCommitStep (dupHeaderStep st line) line

/-- `FactCheckingAgent._check_duplicates`. -/
def check_duplicates (md : String) : CheckResult :=
  ((splitNl md.toList).foldl dupLineStep {}).res

/-! ### Anomaly check (`_check_anomalies`) -/

/-- Models `f"{la / c:.1f}"` (one decimal place, here rounded half up on
the exact ratio; CPython rounds the nearest double half to even, which
agrees except on ties unreachable for the inputs of the claims; no claim
inspects these digits). -/
def oneDecimal (la c : ℕ) : String :=
  let t := (20 * la + c) / (2 * c)
  toString (t / 10) ++ "." ++ toString (t % 10)

/-- Issue text for the low LOC-per-commit ratio anomaly. -/
def lowRatioIssue (name : String) (la c : ℕ) : String :=
  "Repo " ++ name ++ ": Very low LOC/commit ratio (" ++ toString la ++ "/" ++
    toString c ++ " = " ++ oneDecimal la c ++ ")"

/-- Issue text for the deletions-only anomaly. -/
def deletionsOnlyIssue (name : String) (commits : ℕ) : String :=
  "Repo " ++ name ++ ": Has " ++ toString commits ++
    " commits but 0 LOC added - may be deletions only"

/-- The `commits > 0 and loc_added == 0` test of `_check_anomalies`. -/
def anomDeletionsStep (p : String × RepoData) (a : CheckResult) : CheckResult :=
  if p.2.commits > 0 ∧ p.2.loc_added = 0 then
    { a with issues := a.issues ++ [deletionsOnlyIssue p.1 p.2.commits] }
  else a

/-- The low-ratio test, reached only with `commits ≠ 0`:
`loc_added / commits < 5` cleared of the division (exact because
`commits > 0`; the double quotient cannot cross the strict bound for any
realistic count). -/
def anomRatioStep (p : String × RepoData) (a : CheckResult) : CheckResult :=
  if p.2.loc_added < 5 * p.2.commits then
    { a with issues := a.issues ++ [lowRatioIssue p.1 p.2.loc_added p.2.commits] }
  else a

/-- The per-repo loop of `_check_anomalies`.  The low-ratio test divides
`loc_added / commits` guarded only by `loc_added > 0`; with `commits == 0`
CPython raises `ZeroDivisionError`, modelled as `Except.error`. -/
def anomRepoFold : List (String × RepoData) → CheckResult → Except String CheckResult
  | [], a => .ok a
  | p :: ps, a =>
    if p.2.loc_added > 0 then
      if p.2.commits = 0 then .error "division by zero"
      else anomRepoFold ps (anomRatioStep p (anomDeletionsStep p a))
    else anomRepoFold ps (anomDeletionsStep p a)

/-- Non-greedy body of the section pattern: `(.+?)(?:\n|$)` needs one
non-newline character, then runs to the first newline (consumed) or the
end of the string. -/
def sectionBody : List Char → Option (List Char)
  | [] => none
  | c :: cs => if c = '\n' then none else some (dropToNl cs)
where
  /-- Consume up to and including the first newline. -/
  dropToNl : List Char → List Char
    | [] => []
    | '\n' :: r => r
    | _ :: r => dropToNl r

/-- Backtracking over the greedy `\s+` of `##\s+(.+?)(?:\n|$)`: try the
longest whitespace run first, then shorter, down to one character. -/
def sectionWs (l : List Char) : ℕ → Option (List Char)
  | 0 => none
  | k + 1 =>
    match sectionBody (l.drop (k + 1)) with
    | some r => some r
    | none => sectionWs l k

/-- Try the section pattern `##\s+(.+?)(?:\n|$)` at this position. -/
def sectionStep (l : List Char) : Option (Unit × List Char) :=
  match l with
  | '#' :: '#' :: rest =>
    match sectionWs rest ((rest.takeWhile pyIsSpace).length) with
    | some r => some ((), r)
    | none => none
  | _ => none

/-- Number of `re.findall(r"##\s+(.+?)(?:\n|$)", md)` matches. -/
def sectionsCount (md : String) : ℕ :=
  (scanAll sectionStep md.toList).length

/-- Python `markdown_content.count("\n\n")`: non-overlapping occurrences,
scanned left to right. -/
def countNN : List Char → ℕ
  | '\n' :: '\n' :: rest => 1 + countNN rest
  | _ :: rest => countNN rest
  | [] => 0

/-- The too-many-sections test of `_check_anomalies`. -/
def anomSectionsStep (md : String) (a : CheckResult) : CheckResult :=
  if sectionsCount md > 20 then
    { a with
      issues := a.issues ++ ["Unusually many sections: " ++ toString (sectionsCount md)] }
  else a

/-- The blank-lines test of `_check_anomalies`:
`empty_lines_count / total_lines > 0.3`; `split("\n")` is never empty so
`total_lines ≥ 1`, and the division is cleared exactly. -/
def anomBlanksStep (md : String) (a : CheckResult) : CheckResult :=
  if 10 * countNN md.toList > 3 * (splitNl md.toList).length then
    { a with issues := a.issues ++ ["Excessive blank lines detected"] }
  else a

/-- `FactCheckingAgent._check_anomalies`. -/
def check_anomalies (g : GitData) (md : String) : Except String CheckResult :=
  match anomRepoFold g.repos {} with
  | .error e => .error e
  | .ok a => .ok (anomBlanksStep md (anomSectionsStep md a))

/-! ### Verdict compilation and the top-level entry check -/

/-- The overall result dictionary of `check_entry` (the LLM `reasoning`
field is advisory prose and never influences status or lists; it is not
modelled). -/
structure FCResult where
  status : String
  errors : List String
  warnings : List String
  corrections : List String
  deriving Repr, DecidableEq

/-- The `f"[{check_name}] {issue}"` tagging of `_compile_results`. -/
def tagIssues (name : String) (l : List String) : List String :=
  l.map (fun i => "[" ++ name ++ "] " ++ i)

/-- The `result["checks"]` dictionary in insertion order. -/
def fcChecks (acc comp cons dup anom : CheckResult) : List (String × CheckResult) :=
  [("accuracy", acc), ("completeness", comp), ("consistency", cons),
    ("duplicates", dup), ("anomalies", anom)]

/-- The `errors` list `_compile_results` accumulates over the loop: the
name-tagged issues of every check (the anomaly check included), in check
order. -/
def compileErrors (acc comp cons dup anom : CheckResult) : List String :=
  ((fcChecks acc comp cons dup anom).map (fun p => tagIssues p.1 p.2.issues)).flatten

/-- The `warnings` list: the tagged `warnings` entries of each check (no
check in this module ever produces any). -/
def compileWarnings (acc comp cons dup anom : CheckResult) : List String :=
  ((fcChecks acc comp cons dup anom).map (fun p => tagIssues p.1 p.2.warnings)).flatten

/-- The flattened `corrections` list. -/
def compileCorrections (acc comp cons dup anom : CheckResult) : List String :=
  ((fcChecks acc comp cons dup anom).map (fun p => p.2.corrections)).flatten

/-- The status decision at the end of `_compile_results`. -/
def compileStatus (acc comp cons dup anom : CheckResult) : String :=
  if compileErrors acc comp cons dup anom ≠ [] then "fail"
  else if compileWarnings acc comp cons dup anom ≠ [] ∨
      (fcChecks acc comp cons dup anom).any (fun p => !p.2.passed) then
    "pass_with_warnings"
  else "pass"

/-- `FactCheckingAgent._compile_results`, applied to the five check
results in the insertion order of `result["checks"]` (the single Python
loop extends the three lists check by check, which yields exactly these
per-list concatenations). -/
def compile_results (acc comp cons dup anom : CheckResult) : FCResult :=
  ⟨compileStatus acc comp cons dup anom, compileErrors acc comp cons dup anom,
    compileWarnings acc comp cons dup anom, compileCorrections acc comp cons dup anom⟩

/-- `FactCheckingAgent.check_entry`: run the five checks in order and
compile; any exception (here: the anomaly check's `ZeroDivisionError`) is
caught and turned into a `fail` with a "Fact-checking failed" error. -/
def check_entry (g : GitData) (md : String) : FCResult :=
  let acc := check_accuracy g md
  let comp := check_completeness g md
  let cons := check_consistency g md
  let dup := check_duplicates md
  match check_anomalies g md with
  | .ok anom => compile_results acc comp cons dup anom
  | .error e => ⟨"fail", ["Fact-checking failed: " ++ e], [], []⟩

/-! ### Concrete day and entry exercising only the anomaly check -/

/-- A day with one repo, 3 commits, 6 lines added: ratio 2 < 5, so the
anomaly check flags it; every fail-eligible check is satisfied by
`mdAnom`. -/
def gAnom : GitData :=
  { date := "2026-01-02"
    repos := [("alpha", { commits := 3, loc_added := 6 })]
    total_commits := 3
    total_loc_added := 6
    total_loc_deleted := 0 }

/-- Markdown that satisfies accuracy, completeness, consistency and
duplicates for `gAnom`. -/
def mdAnom : String :=
  "## 2026-01-02\n\n## alpha\n\n- `~/code/alpha` (3 commits)\n"

/-- Whether an anomaly-check outcome returned normally with a non-empty
issue list. -/
def anomaliesHaveIssues (x : Except String CheckResult) : Bool :=
  match x with
  | .ok r => !r.issues.isEmpty
  | .error _ => false

/-- C1.  The claim: with the four fail-eligible checks passing (empty
issue lists) and only the anomaly check reporting issues, the overall
status is `pass_with_warnings`, never `fail`.  The code does the
opposite: `_compile_results` extends `result["errors"]` with the issues
of *every* check, the anomaly check included, so an anomaly-only entry
gets `errors ≠ []` and status `fail`.  This theorem evaluates the
pipeline at such an input: all four fail-eligible checks pass with no
issues, the anomaly check alone reports issues, and the compiled status
is `"fail"`. -/
theorem c1_anomaly_only_entry_fails :
    (check_accuracy gAnom mdAnom).passed = true ∧
    (check_accuracy gAnom mdAnom).issues = [] ∧
    (check_completeness gAnom mdAnom).passed = true ∧
    (check_completeness gAnom mdAnom).issues = [] ∧
    (check_consistency gAnom mdAnom).passed = true ∧
    (check_consistency gAnom mdAnom).issues = [] ∧
    (check_duplicates mdAnom).passed = true ∧
    (check_duplicates mdAnom).issues = [] ∧
    anomaliesHaveIssues (check_anomalies gAnom mdAnom) = true ∧
    (check_entry gAnom mdAnom).status = "fail" := by
  decide

/-! ### C2: a failing fail-eligible check forces overall failure -/

/-- Fold-invariant preservation helper. -/
theorem foldl_pres {α β : Type} (P : β → Prop) (step : β → α → β)
    (h : ∀ b a, P b → P (step b a)) :
    ∀ (l : List α) (b : β), P b → P (l.foldl step b) := by
  intro l
  induction l with
  | nil => intro b hb; simpa using hb
  | cons x xs ih =>
    intro b hb
    simpa using ih (step b x) (h b x hb)

/-- The invariant every check of this module maintains: `passed` is set to
`False` only in a branch that also appends an issue. -/
def CRInv (c : CheckResult) : Prop := c.passed = false → c.issues ≠ []

/-- The empty check result satisfies the invariant. -/
theorem crinv_init : CRInv {} := by intro h; simp at h

/-- `accMatchStep` keeps the invariant. -/
theorem accMatchStep_inv (name : String) (n : ℕ) (a : CheckResult) (m : ℕ)
    (h : CRInv a) : CRInv (accMatchStep name n a m) := by
  unfold accMatchStep
  split
  · intro _; simp
  · exact h

/-- `accMissingStep` keeps the invariant. -/
theorem accMissingStep_inv (md : String) (a : CheckResult) (p : String × RepoData)
    (h : CRInv a) : CRInv (accMissingStep md a p) := by
  unfold accMissingStep
  split
  · intro _; simp
  · exact h

/-- `accRepoStep` keeps the invariant. -/
theorem accRepoStep_inv (md : String) (a : CheckResult) (p : String × RepoData)
    (h : CRInv a) : CRInv (accRepoStep md a p) := by
  unfold accRepoStep
  exact foldl_pres CRInv (accMatchStep p.1 p.2.commits)
    (fun b m hb => accMatchStep_inv p.1 p.2.commits b m hb) _ _
    (accMissingStep_inv md a p h)

/-- `accTotalStep` keeps the invariant. -/
theorem accTotalStep_inv (g : GitData) (md : String) (a : CheckResult)
    (h : CRInv a) : CRInv (accTotalStep g md a) := by
  unfold CRInv accTotalStep
  split
  · split
    · intro _; simp
    · exact h
  · exact h

/-- The accuracy check flips `passed` only while appending an issue. -/
theorem check_accuracy_inv (g : GitData) (md : String) :
    CRInv (check_accuracy g md) := by
  unfold check_accuracy
  exact accTotalStep_inv g md _
    (foldl_pres CRInv (accRepoStep md)
      (fun b p hb => accRepoStep_inv md b p hb) g.repos {} crinv_init)

/-- The completeness check flips `passed` only while appending an issue. -/
theorem check_completeness_inv (g : GitData) (md : String) :
    CRInv (check_completeness g md) := by
  unfold check_completeness
  refine foldl_pres CRInv (compRepoStep md) ?_ g.repos {} crinv_init
  intro b p hb
  unfold compRepoStep
  split
  · intro _; simp
  · exact hb

/-- The consistency check flips `passed` only while appending an issue. -/
theorem check_consistency_inv (g : GitData) (md : String) :
    CRInv (check_consistency g md) := by
  unfold check_consistency
  have key : CRInv ((consistencyMatches md).foldl
      (locMatchStep (g.total_loc_added + g.total_loc_deleted)) {}) := by
    refine foldl_pres CRInv _ ?_ _ {} crinv_init
    intro b m hb
    unfold locMatchStep
    split
    · intro _; simp
    · exact hb
  unfold consDateStep
  split
  · intro _; simp
  · exact key

/-- Invariant for the duplicate check's fold state. -/
def DupInv (st : DupState) : Prop := CRInv st.res

/-- `dupHeaderStep` keeps the invariant. -/
theorem dupHeaderStep_inv (st : DupState) (line : List Char) (h : DupInv st) :
    DupInv (dupHeaderStep st line) := by
  unfold dupHeaderStep DupInv
  split
  · split
    · intro _; simp
    · exact h
  · exact h

/-- `dupCommitStep` keeps the invariant. -/
theorem dupCommitStep_inv (st : DupState) (line : List Char) (h : DupInv st) :
    DupInv (dupCommitStep st line) := by
  unfold DupInv CRInv dupCommitStep
  split
  · dsimp only
    split
    · intro _; simp
    · exact h
  · exact h

/-- The duplicate check flips `passed` only while appending an issue. -/
theorem check_duplicates_inv (md : String) : CRInv (check_duplicates md) := by
  unfold check_duplicates
  have key : DupInv ((splitNl md.toList).foldl dupLineStep {}) := by
    refine foldl_pres DupInv dupLineStep ?_ _ {} (by intro h; simp at h)
    intro st line hst
    exact dupCommitStep_inv _ line (dupHeaderStep_inv st line hst)
  exact key

/-- Shape of the compiled `errors` list: the tagged issues of the five
checks, in order. -/
theorem compile_results_errors (acc comp cons dup anom : CheckResult) :
    (compile_results acc comp cons dup anom).errors =
      tagIssues "accuracy" acc.issues ++ tagIssues "completeness" comp.issues ++
        tagIssues "consistency" cons.issues ++ tagIssues "duplicates" dup.issues ++
          tagIssues "anomalies" anom.issues := by
  simp [compile_results, compileErrors, fcChecks, List.append_assoc]

/-- If one of the four fail-eligible check results has a non-empty issue
list, `_compile_results` yields status `fail`. -/
theorem compile_results_status_fail (acc comp cons dup anom : CheckResult)
    (h : acc.issues ≠ [] ∨ comp.issues ≠ [] ∨ cons.issues ≠ [] ∨ dup.issues ≠ []) :
    (compile_results acc comp cons dup anom).status = "fail" := by
  have he : compileErrors acc comp cons dup anom ≠ [] := by
    have hsh := compile_results_errors acc comp cons dup anom
    simp only [compile_results] at hsh
    rw [hsh]
    intro hz
    rw [List.append_eq_nil, List.append_eq_nil, List.append_eq_nil,
      List.append_eq_nil] at hz
    simp only [tagIssues, List.map_eq_nil_iff] at hz
    rcases h with h | h | h | h
    · exact h hz.1.1.1.1
    · exact h hz.1.1.1.2
    · exact h hz.1.1.2
    · exact h hz.1.2
  show compileStatus acc comp cons dup anom = "fail"
  unfold compileStatus
  rw [if_pos he]

/-- C2: for every day summary and generated text, if any fail-eligible
check (accuracy, completeness, consistency, duplicates) reports
`passed = False`, the overall verdict of `check_entry` has status
`fail`, regardless of how many advisory warnings exist.  (Each of the
four checks flips `passed` only while appending an issue; all issues of
fail-eligible checks land in `errors`, and non-empty `errors` force
`fail`; if the anomaly check instead raises, the exception handler also
returns status `fail`.) -/
theorem c2_fail_eligible_forces_fail (g : GitData) (md : String)
    (h : (check_accuracy g md).passed = false ∨
         (check_completeness g md).passed = false ∨
         (check_consistency g md).passed = false ∨
         (check_duplicates md).passed = false) :
    (check_entry g md).status = "fail" := by
  unfold check_entry
  rcases ha : check_anomalies g md with e | anom
  · rfl
  · refine compile_results_status_fail _ _ _ _ _ ?_
    rcases h with h | h | h | h
    · exact Or.inl (check_accuracy_inv g md h)
    · exact Or.inr (Or.inl (check_completeness_inv g md h))
    · exact Or.inr (Or.inr (Or.inl (check_consistency_inv g md h)))
    · exact Or.inr (Or.inr (Or.inr (check_duplicates_inv md h)))

/-- A day whose only repo has two commits never mentioned in the (empty)
markdown: the accuracy check fails. -/
def gMissing : GitData := { repos := [("x", { commits := 2 })] }

/-- Witness for C2 at a concrete input: the accuracy check fails on an
empty markdown and the overall status is `fail`. -/
theorem c2_witness :
    (check_accuracy gMissing "").passed = false ∧
    (check_entry gMissing "").status = "fail" :=
  ⟨by decide, c2_fail_eligible_forces_fail gMissing "" (Or.inl (by decide))⟩

/-! ### C3: the accuracy check records a mismatch for every disagreeing
occurrence -/

/-- The issues contributed by one iteration of the per-repo loop of
`_check_accuracy`: a missing-count issue when no occurrence exists but
commits do, then one mismatch issue per disagreeing occurrence, in text
order. -/
def repoBlockIssues (md : String) (p : String × RepoData) : List String :=
  (if accuracyMatches p.1 md = [] ∧ p.2.commits > 0 then [missingIssue p.1] else []) ++
    ((accuracyMatches p.1 md).filter (fun k => k ≠ p.2.commits)).map
      (mismatchIssue p.1 p.2.commits)

/-- The issues contributed by the total-commits comparison. -/
def totalBlock (g : GitData) (md : String) : List String :=
  match totalCommitsStated md with
  | some actual =>
    if actual ≠ g.total_commits then [totalMismatchIssue g.total_commits actual]
    else []
  | none => []

/-- `accMatchStep` appends exactly the mismatch issue of a disagreeing
occurrence. -/
theorem accMatchStep_issues (name : String) (n : ℕ) (a : CheckResult) (m : ℕ) :
    (accMatchStep name n a m).issues =
      a.issues ++ (if m ≠ n then [mismatchIssue name n m] else []) := by
  unfold accMatchStep
  split
  · simp_all
  · simp_all

/-- The inner fold of `_check_accuracy` appends one mismatch issue per
disagreeing occurrence, in order. -/
theorem accFold_issues (name : String) (n : ℕ) :
    ∀ (ms : List ℕ) (a : CheckResult),
      ((ms.foldl (accMatchStep name n) a)).issues =
        a.issues ++ (ms.filter (fun k => k ≠ n)).map (mismatchIssue name n) := by
  intro ms
  induction ms with
  | nil => intro a; simp
  | cons m ms ih =>
    intro a
    by_cases hm : m ≠ n
    · simp only [List.foldl_cons, ih, accMatchStep_issues, if_pos hm,
        List.filter_cons, List.map_cons]
      simp [hm, List.append_assoc]
    · simp only [List.foldl_cons, ih, accMatchStep_issues, if_neg hm,
        List.filter_cons]
      simp [hm]

/-- `accMissingStep` appends exactly the missing-count issue part. -/
theorem accMissingStep_issues (md : String) (a : CheckResult)
    (p : String × RepoData) :
    (accMissingStep md a p).issues = a.issues ++
      (if accuracyMatches p.1 md = [] ∧ p.2.commits > 0 then [missingIssue p.1]
        else []) := by
  unfold accMissingStep
  split
  · simp_all
  · simp_all

/-- One iteration of the per-repo loop appends exactly its block. -/
theorem accRepoStep_issues (md : String) (a : CheckResult)
    (p : String × RepoData) :
    (accRepoStep md a p).issues = a.issues ++ repoBlockIssues md p := by
  unfold accRepoStep repoBlockIssues
  rw [accFold_issues, accMissingStep_issues, List.append_assoc]

/-- The repo loop of `_check_accuracy` produces the concatenation of the
per-repo blocks. -/
theorem accReposFold_issues (md : String) :
    ∀ (rs : List (String × RepoData)) (a : CheckResult),
      (rs.foldl (accRepoStep md) a).issues =
        a.issues ++ (rs.map (repoBlockIssues md)).flatten := by
  intro rs
  induction rs with
  | nil => intro a; simp
  | cons p ps ih =>
    intro a
    simp [ih, accRepoStep_issues, List.append_assoc]

/-- `accTotalStep` appends exactly the total block. -/
theorem accTotalStep_issues (g : GitData) (md : String) (a : CheckResult) :
    (accTotalStep g md a).issues = a.issues ++ totalBlock g md := by
  unfold accTotalStep totalBlock
  split
  · split
    · simp
    · simp
  · simp

/-- Full shape of the accuracy check's issue list. -/
theorem check_accuracy_issues (g : GitData) (md : String) :
    (check_accuracy g md).issues =
      (g.repos.map (repoBlockIssues md)).flatten ++ totalBlock g md := by
  unfold check_accuracy
  rw [accTotalStep_issues, accReposFold_issues]
  rfl

/-- `accMatchStep` never resurrects a failed flag. -/
theorem accMatchStep_passed_mono (name : String) (n : ℕ) (a : CheckResult) (m : ℕ)
    (h : a.passed = false) : (accMatchStep name n a m).passed = false := by
  unfold accMatchStep
  split
  · rfl
  · exact h

/-- A disagreeing occurrence forces `passed = False` in the inner fold. -/
theorem accFold_passed_false (name : String) (n : ℕ) :
    ∀ (ms : List ℕ) (a : CheckResult) (m : ℕ), m ∈ ms → m ≠ n →
      ((ms.foldl (accMatchStep name n) a)).passed = false := by
  intro ms
  induction ms with
  | nil => intro a m hm; exact absurd hm (List.not_mem_nil m)
  | cons m' ms ih =>
    intro a m hm hne
    rcases List.mem_cons.mp hm with rfl | hmem
    · simp only [List.foldl_cons]
      refine foldl_pres (fun c => c.passed = false) _
        (fun b k hb => accMatchStep_passed_mono name n b k hb) ms _ ?_
      unfold accMatchStep
      rw [if_pos hne]
    · exact ih (accMatchStep name n a m') m hmem hne

/-- `accRepoStep` never resurrects a failed flag. -/
theorem accRepoStep_passed_mono (md : String) (a : CheckResult)
    (p : String × RepoData) (h : a.passed = false) :
    (accRepoStep md a p).passed = false := by
  unfold accRepoStep
  refine foldl_pres (fun c => c.passed = false) _
    (fun b k hb => accMatchStep_passed_mono p.1 p.2.commits b k hb) _ _ ?_
  unfold accMissingStep
  split
  · rfl
  · exact h

/-- `accTotalStep` never resurrects a failed flag. -/
theorem accTotalStep_passed_mono (g : GitData) (md : String) (a : CheckResult)
    (h : a.passed = false) : (accTotalStep g md a).passed = false := by
  unfold accTotalStep
  split
  · split
    · rfl
    · exact h
  · exact h

/-- C3: for every repository entry of the day summary with a positive
commit count, every occurrence of the repo-with-commit-count pattern in
the text that states a different number makes the accuracy check fail;
the issue list contains the mismatch issue of each such occurrence (one
per disagreeing occurrence, contiguously, not only the first), and that
issue text contains the decimal renderings of both the expected and the
found count. -/
theorem c3_accuracy_reports_every_mismatch (g : GitData) (name : String)
    (rd : RepoData) (md : String) (hmem : (name, rd) ∈ g.repos)
    (_hpos : 0 < rd.commits) (m : ℕ) (hm : m ∈ accuracyMatches name md)
    (hne : m ≠ rd.commits) :
    (check_accuracy g md).passed = false ∧
    mismatchIssue name rd.commits m ∈ (check_accuracy g md).issues ∧
    (∃ pre post, (check_accuracy g md).issues =
      pre ++ ((accuracyMatches name md).filter (fun k => k ≠ rd.commits)).map
        (mismatchIssue name rd.commits) ++ post) ∧
    (toString rd.commits).toList <:+: (mismatchIssue name rd.commits m).toList ∧
    (toString m).toList <:+: (mismatchIssue name rd.commits m).toList := by
  obtain ⟨l1, l2, hrepos⟩ := List.append_of_mem hmem
  have hms : accuracyMatches name md ≠ [] := fun hz => by simp [hz] at hm
  refine ⟨?_, ?_, ?_, ?_, ?_⟩
  · -- passed = false
    unfold check_accuracy
    refine accTotalStep_passed_mono g md _ ?_
    rw [hrepos, List.foldl_append]
    refine foldl_pres (fun c => c.passed = false) _
      (fun b q hb => accRepoStep_passed_mono md b q hb) l2 _ ?_
    simp only [List.foldl_cons]
    unfold accRepoStep
    exact accFold_passed_false name rd.commits _ _ m hm hne
  · -- membership of the mismatch issue
    rw [check_accuracy_issues]
    refine List.mem_append_left _ ?_
    rw [List.mem_flatten]
    refine ⟨repoBlockIssues md (name, rd), List.mem_map_of_mem _ hmem, ?_⟩
    unfold repoBlockIssues
    refine List.mem_append_right _ ?_
    exact List.mem_map_of_mem _ (List.mem_filter.mpr ⟨hm, by simpa using hne⟩)
  · -- the full run of mismatch issues is a contiguous block
    refine ⟨(l1.map (repoBlockIssues md)).flatten,
      (l2.map (repoBlockIssues md)).flatten ++ totalBlock g md, ?_⟩
    rw [check_accuracy_issues, hrepos]
    have hmiss :
        repoBlockIssues md (name, rd) =
          ((accuracyMatches name md).filter (fun k => k ≠ rd.commits)).map
            (mismatchIssue name rd.commits) := by
      unfold repoBlockIssues
      simp [hms]
    simp [hmiss, List.append_assoc]
  · exact ⟨("Repo " ++ name ++ ": Commit count mismatch (expected ").toList,
      (", found " ++ toString m ++ ")").toList, by simp [mismatchIssue]⟩
  · exact ⟨("Repo " ++ name ++ ": Commit count mismatch (expected " ++
        toString rd.commits ++ ", found ").toList, (")" : String).toList,
      by simp [mismatchIssue]⟩

/-- A day summary and text for the C3 witness: repo alpha has 3 commits
but the text claims 4 twice and 3 once. -/
def gC3 : GitData := { repos := [("alpha", { commits := 3 })] }

/-- Text with two disagreeing occurrences and one agreeing one. -/
def mdC3 : String :=
  "- `~/code/alpha` (4 commits)\n- `~/code/alpha` (3 commits)\n- `~/code/alpha` (4 commits)\n"

/-- Witness for C3 at a concrete input. -/
theorem c3_witness :
    (check_accuracy gC3 mdC3).passed = false ∧
    mismatchIssue "alpha" 3 4 ∈ (check_accuracy gC3 mdC3).issues :=
  ⟨(c3_accuracy_reports_every_mismatch gC3 "alpha" { commits := 3 } mdC3
      (by decide) (by decide) 4 (by decide) (by decide)).1,
    (c3_accuracy_reports_every_mismatch gC3 "alpha" { commits := 3 } mdC3
      (by decide) (by decide) 4 (by decide) (by decide)).2.1⟩

/-! ### C4: LLM arbitration (`Orchestrator._get_opencode_decision`)

The success path of the method: the response content is stripped,
lowercased and looked up verbatim in `options`; on a miss the first
option is returned (`options[0]`, so `none` models the `IndexError` an
empty option list would raise; the exception path of the method also
returns `options[0]`). -/

/-- `Orchestrator._get_opencode_decision`, as a function of the LLM's
response content. -/
def get_opencode_decision (llmContent : String) (options : List String) :
    Option String :=
  if pyLower (pyStrip llmContent) ∈ options then some (pyLower (pyStrip llmContent))
  else options.head?

/-- C4 counterexample.  The claim quantifies over responses that are not
a case-insensitive *exact* match to any option and requires the resolved
choice to be `options[0]`.  The response " abort" (leading space) is not
a case-insensitive exact match to "retry" or "abort", yet the code strips
the response first and resolves it to "abort", not to the first option
"retry". -/
theorem c4_counterexample :
    pyLower " abort" ≠ pyLower "retry" ∧
    pyLower " abort" ≠ pyLower "abort" ∧
    get_opencode_decision " abort" ["retry", "abort"] = some "abort" ∧
    get_opencode_decision " abort" ["retry", "abort"] ≠ some "retry" := by
  decide

/-- C4 amended: the resolution key is the *trimmed, lowercased* response;
whenever that key does not literally equal one of the options the
resolved choice is the first option, and the resolved choice is always an
element of the option list (an out-of-domain choice is never
propagated). -/
theorem c4_arbitration_default (content : String) (options : List String)
    (h : options ≠ []) :
    (pyLower (pyStrip content) ∉ options →
      get_opencode_decision content options = some (options.head h)) ∧
    ∃ o ∈ options, get_opencode_decision content options = some o := by
  unfold get_opencode_decision
  by_cases hd : pyLower (pyStrip content) ∈ options
  · refine ⟨fun hn => absurd hd hn, ⟨pyLower (pyStrip content), hd, if_pos hd⟩⟩
  · rcases options with _ | ⟨o, os⟩
    · exact absurd rfl h
    · exact ⟨fun _ => by rw [if_neg hd]; rfl,
        ⟨o, List.mem_cons_self o os, by rw [if_neg hd]; rfl⟩⟩

/-- Witness for C4 (the spec's concrete scenario 5): "maybe" against
`["retry", "abort", "skip_day"]` resolves to "retry". -/
theorem c4_witness :
    get_opencode_decision "maybe" ["retry", "abort", "skip_day"] = some "retry" :=
  (c4_arbitration_default "maybe" ["retry", "abort", "skip_day"]
      (by decide)).1 (by decide)

/-! ### C5: the Fibonacci retry loop stops at the wall-clock ceiling

`fibonacci_retry` from `src/utils/retry.py`, run against a fake clock.
The loop body is modelled on attempt outcomes `op : ℕ → Except E T`
(attempt `i` is Python's `attempt_num = i + 1`) and a fake clock
`elapsed : ℕ → ℚ` giving `time.time() - start_time` observed after
attempt `i` fails.  Fuel bounds the number of iterations only; `none`
means the loop is still running after `fuel` iterations. -/

/-- The delay table `FIBONACCI_DELAYS`. -/
def FIBONACCI_DELAYS : List ℕ :=
  [1, 1, 2, 3, 5, 8, 13, 21, 34, 55, 89, 144, 233, 377, 610, 987, 1597, 2584,
    4181, 6765]

/-- `MAX_TOTAL_TIME` (20 hours, in seconds). -/
def MAX_TOTAL_TIME : ℕ := 72000

/-- The sleep duration chosen after failed attempt `i`
(`FIBONACCI_DELAYS[min(attempt_num - 1, len(FIBONACCI_DELAYS) - 1)]`);
sleeping only advances the fake clock, so the value does not influence
control flow. -/
def delayFor (i : ℕ) : ℕ :=
  FIBONACCI_DELAYS.getD (min i (FIBONACCI_DELAYS.length - 1)) 0

/-- The `while True` loop of `fibonacci_retry`: try the operation; on
success return; on failure, if the elapsed time has reached the ceiling
re-raise the last error; otherwise consult the optional callback (which
receives `attempt_num = i + 1`) and either abort with the last error or
sleep and loop. -/
def fibRetryRun {T : Type} (maxTotal : ℚ) (op : ℕ → Except String T)
    (elapsed : ℕ → ℚ) (cb : Option (ℕ → String → Bool)) :
    ℕ → ℕ → Option (Except String T)
  | 0, _ => none
  | fuel + 1, i =>
    match op i with
    | .ok v => some (.ok v)
    | .error e =>
      if maxTotal ≤ elapsed i then some (.error e)
      else
        match cb with
        | some f =>
          if f (i + 1) e then fibRetryRun maxTotal op elapsed cb fuel (i + 1)
          else some (.error e)
        | none => fibRetryRun maxTotal op elapsed cb fuel (i + 1)

/-- Helper: starting anywhere at or before the ceiling-hitting attempt,
the default-callback loop raises the error of that attempt. -/
theorem fibRetryRun_reaches {T : Type} (maxTotal : ℚ) (op : ℕ → Except String T)
    (elapsed : ℕ → ℚ) (err : ℕ → String) (k : ℕ)
    (hop : ∀ i, i ≤ k → op i = .error (err i))
    (hlt : ∀ i, i < k → elapsed i < maxTotal)
    (hk : maxTotal ≤ elapsed k) :
    ∀ (fuel j : ℕ), j ≤ k → k - j < fuel →
      fibRetryRun maxTotal op elapsed none fuel j = some (.error (err k)) := by
  intro fuel
  induction fuel with
  | zero => intro j _ hj; exact absurd hj (by simp)
  | succ fuel ih =>
    intro j hjk hfuel
    unfold fibRetryRun
    rw [hop j hjk]
    dsimp only
    by_cases hjeq : j = k
    · subst hjeq
      rw [if_pos hk]
    · have hjlt : j < k := lt_of_le_of_ne hjk hjeq
      rw [if_neg (not_le.mpr (hlt j hjlt))]
      exact ih (j + 1) hjlt (by omega)

/-- C5: for every operation trace and every configured ceiling, once a
failed attempt observes an elapsed time at or beyond the ceiling, the
retry loop raises the error of that attempt and makes no further
attempt: the result is the same for every operation that agrees on the
attempts up to that point, even one that would succeed on a later
attempt. -/
theorem c5_retry_ceiling_terminates {T : Type} (maxTotal : ℚ)
    (op op' : ℕ → Except String T) (elapsed : ℕ → ℚ) (err : ℕ → String) (k : ℕ)
    (hop : ∀ i, i ≤ k → op i = .error (err i))
    (hagree : ∀ i, i ≤ k → op' i = op i)
    (hlt : ∀ i, i < k → elapsed i < maxTotal)
    (hk : maxTotal ≤ elapsed k) :
    ∀ fuel, k < fuel →
      fibRetryRun maxTotal op elapsed none fuel 0 = some (.error (err k)) ∧
      fibRetryRun maxTotal op' elapsed none fuel 0 = some (.error (err k)) := by
  intro fuel hfuel
  constructor
  · exact fibRetryRun_reaches maxTotal op elapsed err k hop hlt hk fuel 0
      (Nat.zero_le k) (by omega)
  · refine fibRetryRun_reaches maxTotal op' elapsed err k ?_ hlt hk fuel 0
      (Nat.zero_le k) (by omega)
    intro i hi
    rw [hagree i hi]
    exact hop i hi

/-- Fake operation for the C5 witness: attempts 0 and 1 fail, attempt 2
would succeed. -/
def opC5 (i : ℕ) : Except String ℕ :=
  if i ≤ 1 then .error (toString i) else .ok 42

/-- Fake always-failing operation agreeing with `opC5` on attempts 0, 1. -/
def opC5all (i : ℕ) : Except String ℕ := .error (toString i)

/-- Fake clock: 10 seconds elapsed after the first failure, 60 after the
second. -/
def elapsedC5 (i : ℕ) : ℚ := if i = 0 then 10 else 60

/-- Witness for C5: with a 60-second ceiling the loop stops after the
second failed attempt with that attempt's error, although `opC5` would
have succeeded on attempt 2. -/
theorem c5_witness :
    fibRetryRun 60 opC5all elapsedC5 none 5 0 = some (.error "1") ∧
    fibRetryRun 60 opC5 elapsedC5 none 5 0 = some (.error "1") :=
  c5_retry_ceiling_terminates 60 opC5all opC5 elapsedC5 toString 1
    (by intro i hi; interval_cases i <;> rfl)
    (by intro i hi; interval_cases i <;> rfl)
    (by
      intro i hi
      interval_cases i
      norm_num [elapsedC5])
    (by norm_num [elapsedC5]) 5 (by norm_num)

/-! ### C6: the LOC consistency scan -/

/-- The day of the spec's concrete scenario 4: 4000 lines added, 800
deleted, expected total 4800. -/
def gC6 : GitData :=
  { date := "2026-01-02", total_loc_added := 4000, total_loc_deleted := 800 }

/-- Text stating the correct total, with the number before the keyword. -/
def mdLocGood : String := "Summary for 2026-01-02: about 4800 LOC today"

/-- Text stating a wildly wrong total, with the number before the
keyword. -/
def mdLocWords : String := "On 2026-01-02 I wrote 100000 lines of code"

/-- Text stating a wildly wrong total *after* the keyword. -/
def mdLocAfter : String := "On 2026-01-02 LOC: 100000"

/-- C6 counterexample.  The claim requires the consistency check to fail
on a text stating "100000 lines of code" with an expected total of 4800.
The code's pattern only captures a number *after* the keyword
(`(?:LOC|lines|lines of code)[:\s]*(\d+...)`), so this text produces no
match at all and the check passes. -/
theorem c6_counterexample :
    (check_consistency gC6 mdLocWords).passed = true ∧
    (check_consistency gC6 mdLocWords).issues = [] := by
  decide

/-- `locMatchStep` never resurrects a failed flag. -/
theorem locMatchStep_passed_mono (total : ℕ) (a : CheckResult) (m : ℕ)
    (h : a.passed = false) : (locMatchStep total a m).passed = false := by
  unfold locMatchStep
  split
  · rfl
  · exact h

/-- An out-of-tolerance captured number forces `passed = False` in the
LOC fold. -/
theorem locFold_passed_false (total : ℕ) :
    ∀ (ms : List ℕ) (a : CheckResult) (m : ℕ), m ∈ ms →
      5 * |(m : ℤ) - (total : ℤ)| > (total : ℤ) →
      ((ms.foldl (locMatchStep total) a)).passed = false := by
  intro ms
  induction ms with
  | nil => intro a m hm; exact absurd hm (List.not_mem_nil m)
  | cons m' ms ih =>
    intro a m hm hgt
    rcases List.mem_cons.mp hm with rfl | hmem
    · simp only [List.foldl_cons]
      refine foldl_pres (fun c => c.passed = false) _
        (fun b k hb => locMatchStep_passed_mono total b k hb) ms _ ?_
      unfold locMatchStep
      rw [if_pos hgt]
    · exact ih (locMatchStep total a m') m hmem hgt

/-- `consDateStep` never resurrects a failed flag. -/
theorem consDateStep_passed_mono (g : GitData) (md : String) (a : CheckResult)
    (h : a.passed = false) : (consDateStep g md a).passed = false := by
  unfold consDateStep
  split
  · rfl
  · exact h

/-- C6 amended: the consistency check captures only numbers *following*
the words LOC / lines / lines of code.  On scenario 4's day (expected
total 4800) it therefore passes both on "4800 LOC" and on "100000 lines
of code" (numbers before the keyword are invisible to it), while a text
stating the total after the keyword, "LOC: 100000", fails; in general
any captured number deviating from the expected total by more than 20
percent in either direction makes the check fail. -/
theorem c6_loc_consistency (g : GitData) (md : String) (m : ℕ)
    (hm : m ∈ consistencyMatches md)
    (hdev : 5 * |(m : ℤ) - ((g.total_loc_added + g.total_loc_deleted : ℕ) : ℤ)| >
      ((g.total_loc_added + g.total_loc_deleted : ℕ) : ℤ)) :
    (check_consistency g md).passed = false ∧
    (check_consistency gC6 mdLocGood).passed = true ∧
    (check_consistency gC6 mdLocWords).passed = true ∧
    (check_consistency gC6 mdLocAfter).passed = false := by
  refine ⟨?_, by decide, by decide, by decide⟩
  unfold check_consistency
  exact consDateStep_passed_mono g md _
    (locFold_passed_false (g.total_loc_added + g.total_loc_deleted)
      (consistencyMatches md) {} m hm hdev)

/-- Witness for C6: the number 100000 is captured after "LOC:" and is out
of tolerance for an expected total of 4800, so the check fails. -/
theorem c6_witness : (check_consistency gC6 mdLocAfter).passed = false :=
  (c6_loc_consistency gC6 mdLocAfter 100000 (by decide) (by decide)).1

/-! ### C7: duplicate sections and duplicate commit bullets -/

/-- C7 counterexample.  The claim's taxonomy includes `build` (and `ci`,
`revert`, `other`), but the code's alternation is only
`feat|fix|refactor|chore|docs|style|test|perf`: a verbatim-repeated
"- build: ..." bullet produces no duplicate-commit issue at all. -/
theorem c7_counterexample :
    (check_duplicates "- build: add pipeline\n- build: add pipeline").passed = true ∧
    (check_duplicates "- build: add pipeline\n- build: add pipeline").issues = [] := by
  decide

/-- Issue membership survives `dupHeaderStep`. -/
theorem dupHeaderStep_mem (x : String) (st : DupState) (line : List Char)
    (h : x ∈ st.res.issues) : x ∈ (dupHeaderStep st line).res.issues := by
  unfold dupHeaderStep
  split
  · dsimp only
    split
    · exact List.mem_append_left _ h
    · exact h
  · exact h

/-- Issue membership survives `dupCommitStep`. -/
theorem dupCommitStep_mem (x : String) (st : DupState) (line : List Char)
    (h : x ∈ st.res.issues) : x ∈ (dupCommitStep st line).res.issues := by
  unfold dupCommitStep
  split
  · dsimp only
    split
    · exact List.mem_append_left _ h
    · exact h
  · exact h

/-- Issue membership survives the whole duplicate fold. -/
theorem dupFold_mem (x : String) :
    ∀ (ls : List (List Char)) (st : DupState), x ∈ st.res.issues →
      x ∈ (ls.foldl dupLineStep st).res.issues :=
  fun ls st h =>
    foldl_pres (fun s => x ∈ s.res.issues) dupLineStep
      (fun s l hs => dupCommitStep_mem x _ l (dupHeaderStep_mem x s l hs)) ls st h

/-- Seen-header membership survives `dupLineStep`. -/
theorem dupLineStep_seenHeaders_mem (h : List Char) (st : DupState)
    (line : List Char) (hm : h ∈ st.seenHeaders) :
    h ∈ (dupLineStep st line).seenHeaders := by
  unfold dupLineStep dupCommitStep dupHeaderStep
  split <;> dsimp only <;> split <;>
    first
      | exact List.mem_append_left _ hm
      | exact hm

/-- Seen-commit membership survives `dupLineStep`. -/
theorem dupLineStep_seenCommits_mem (t : String) (st : DupState)
    (line : List Char) (hm : t ∈ st.seenCommits) :
    t ∈ (dupLineStep st line).seenCommits := by
  unfold dupLineStep dupCommitStep dupHeaderStep
  split <;> dsimp only <;> split <;>
    first
      | exact List.mem_append_left _ hm
      | exact hm

/-- A header line deposits its stripped text in `section_headers`. -/
theorem dupLineStep_adds_header (st : DupState) (line : List Char)
    (hh : (matchLit "## ".toList line).isSome) :
    pyStripList line ∈ (dupLineStep st line).seenHeaders := by
  unfold dupLineStep dupCommitStep
  have hbase : pyStripList line ∈ (dupHeaderStep st line).seenHeaders := by
    unfold dupHeaderStep
    rw [if_pos hh]
    exact List.mem_append_right _ (List.mem_singleton.mpr rfl)
  split
  · exact hbase
  · exact hbase

/-- A commit bullet deposits its trailing text in `commit_messages`. -/
theorem dupLineStep_adds_commit (st : DupState) (line : List Char) (t : String)
    (hc : commitMatchText line = some t) :
    t ∈ (dupLineStep st line).seenCommits := by
  unfold dupLineStep dupCommitStep
  have hseen : commitMatchText line = some t := hc
  split
  · rename_i t' heq
    rw [hseen] at heq
    dsimp only
    injection heq with heq
    exact List.mem_append_right _ (List.mem_singleton.mpr heq)
  · rename_i heq
    rw [hseen] at heq
    cases heq

/-- A header line whose stripped text was already seen emits the
duplicate-section issue. -/
theorem dupLineStep_header_issue (st : DupState) (line : List Char)
    (hh : (matchLit "## ".toList line).isSome)
    (hseen : pyStripList line ∈ st.seenHeaders) :
    dupHeaderIssue (pyStripList line) ∈ (dupLineStep st line).res.issues := by
  unfold dupLineStep
  refine dupCommitStep_mem _ _ line ?_
  unfold dupHeaderStep
  rw [if_pos hh, if_pos hseen]
  exact List.mem_append_right _ (List.mem_singleton.mpr rfl)

/-- A commit bullet whose trailing text was already seen emits the
duplicate-commit issue. -/
theorem dupLineStep_commit_issue (st : DupState) (line : List Char) (t : String)
    (hc : commitMatchText line = some t) (hseen : t ∈ st.seenCommits) :
    dupCommitIssue t ∈ (dupLineStep st line).res.issues := by
  unfold dupLineStep dupCommitStep
  have hsh : (dupHeaderStep st line).seenCommits = st.seenCommits := by
    unfold dupHeaderStep
    split <;> rfl
  split
  · rename_i t' heq
    rw [hc] at heq
    injection heq with heq
    subst heq
    dsimp only
    rw [hsh, if_pos hseen]
    exact List.mem_append_right _ (List.mem_singleton.mpr rfl)
  · rename_i heq
    rw [hc] at heq
    cases heq

/-- C7 amended: walking the lines of the text, (a) a `##`-header line
whose stripped text already occurred as a header earlier yields a
duplicate-section issue, and (b) a bullet whose category prefix comes
from the *eight-prefix* taxonomy `feat|fix|refactor|chore|docs|style|
test|perf` and whose trailing text already occurred yields a
duplicate-commit issue; both accumulate over the whole text (every later
repetition is reported, whatever came in between). -/
theorem c7_duplicates_accumulate (md : String) (A B C : List (List Char))
    (li lj : List Char)
    (hsplit : splitNl md.toList = A ++ li :: B ++ lj :: C) :
    ((matchLit "## ".toList li).isSome → (matchLit "## ".toList lj).isSome →
      pyStripList li = pyStripList lj →
      dupHeaderIssue (pyStripList lj) ∈ (check_duplicates md).issues) ∧
    (∀ t, commitMatchText li = some t → commitMatchText lj = some t →
      dupCommitIssue t ∈ (check_duplicates md).issues) := by
  have hfold : (splitNl md.toList).foldl dupLineStep {} =
      (C.foldl dupLineStep
        (dupLineStep ((B.foldl dupLineStep
          (dupLineStep (A.foldl dupLineStep {}) li))) lj)) := by
    rw [hsplit]
    rw [List.foldl_append, List.foldl_cons, List.foldl_append, List.foldl_cons]
  constructor
  · intro hhi hhj hstrip
    unfold check_duplicates
    rw [hfold]
    refine dupFold_mem _ C _ ?_
    refine dupLineStep_header_issue _ lj hhj ?_
    rw [← hstrip]
    refine foldl_pres (fun s => pyStripList li ∈ s.seenHeaders) dupLineStep
      (fun s l hs => dupLineStep_seenHeaders_mem _ s l hs) B _ ?_
    exact dupLineStep_adds_header _ li hhi
  · intro t hci hcj
    unfold check_duplicates
    rw [hfold]
    refine dupFold_mem _ C _ ?_
    refine dupLineStep_commit_issue _ lj t hcj ?_
    refine foldl_pres (fun s => t ∈ s.seenCommits) dupLineStep
      (fun s l hs => dupLineStep_seenCommits_mem t s l hs) B _ ?_
    exact dupLineStep_adds_commit _ li t hci

/-- Markdown with a repeated section header and a repeated feat bullet. -/
def mdDup : String := "## x\n- feat: y\n## x\n- feat: y"

/-- Witness for C7: both the repeated header and the repeated commit text
of `mdDup` are reported. -/
theorem c7_witness :
    dupHeaderIssue (pyStripList "## x".toList) ∈ (check_duplicates mdDup).issues ∧
    dupCommitIssue "y" ∈ (check_duplicates mdDup).issues :=
  ⟨(c7_duplicates_accumulate mdDup [] ["- feat: y".toList] ["- feat: y".toList]
      "## x".toList "## x".toList (by decide)).1 (by decide) (by decide) rfl,
    (c7_duplicates_accumulate mdDup ["## x".toList] ["## x".toList] []
      "- feat: y".toList "- feat: y".toList (by decide)).2 "y" (by decide) (by decide)⟩

/-! ### C8: the estimated-hours heuristic (`GitAnalysisAgent._estimate_hours`)

Commit timestamps are modelled as rational epoch seconds (ISO-8601
strings and `datetime.fromisoformat` form an order isomorphism onto
times, and `(last - first).total_seconds()` is plain subtraction).  A
repo contributes its pair only when both `first_commit` and
`last_commit` keys are present. -/

/-- One entry of `repo_results` as read by `_estimate_hours`. -/
structure HoursRepo where
  commits : ℕ
  timestamps : Option (ℚ × ℚ)
  deriving Repr, DecidableEq

/-- The `all_timestamps` list, in iteration order. -/
def tsList (rs : List HoursRepo) : List ℚ :=
  rs.foldr
    (fun r acc =>
      match r.timestamps with
      | some p => p.1 :: p.2 :: acc
      | none => acc) []

/-- `total_commits = sum(r["commits"] for r in repo_results.values())`. -/
def totalCommitsOf (rs : List HoursRepo) : ℕ := (rs.map (·.commits)).sum

/-- `span_hours`: sorting puts the minimum first and the maximum last, so
the span is `(max - min) / 3600`; an empty timestamp list short-circuits
to 0.0. -/
def spanOf (rs : List HoursRepo) : ℚ :=
  match tsList rs with
  | [] => 0
  | t :: ts => ((t :: ts).foldl max t - (t :: ts).foldl min t) / 3600

/-- The tail of `_estimate_hours` after `span_hours` is computed. -/
def hoursFromSpan (total : ℕ) (span : ℚ) : ℚ :=
  if span > 0 then
    span *
      (if (total : ℚ) / span > 0 then max 0.5 (min 2 (10 / ((total : ℚ) / span)))
        else 1)
  else span

/-- `GitAnalysisAgent._estimate_hours`. -/
def estimate_hours (rs : List HoursRepo) : ℚ :=
  hoursFromSpan (totalCommitsOf rs) (spanOf rs)

/-- A left fold of `min` only decreases the seed. -/
theorem foldl_min_le_init : ∀ (l : List ℚ) (t : ℚ), l.foldl min t ≤ t := by
  intro l
  induction l with
  | nil => intro t; simp
  | cons x xs ih =>
    intro t
    calc (x :: xs).foldl min t = xs.foldl min (min t x) := by simp
    _ ≤ min t x := ih (min t x)
    _ ≤ t := min_le_left t x

/-- A left fold of `max` only increases the seed. -/
theorem init_le_foldl_max : ∀ (l : List ℚ) (t : ℚ), t ≤ l.foldl max t := by
  intro l
  induction l with
  | nil => intro t; simp
  | cons x xs ih =>
    intro t
    calc t ≤ max t x := le_max_left t x
    _ ≤ xs.foldl max (max t x) := ih (max t x)
    _ = (x :: xs).foldl max t := by simp

/-- Nonnegativity of the span expression of a non-empty timestamp list. -/
theorem span_expr_nonneg (t : ℚ) (ts : List ℚ) :
    0 ≤ ((t :: ts).foldl max t - (t :: ts).foldl min t) / 3600 := by
  have h1 := foldl_min_le_init (t :: ts) t
  have h2 := init_le_foldl_max (t :: ts) t
  have h3 : (0 : ℚ) ≤ (t :: ts).foldl max t - (t :: ts).foldl min t := by linarith
  positivity

/-- The span is never negative. -/
theorem spanOf_nonneg (rs : List HoursRepo) : 0 ≤ spanOf rs := by
  unfold spanOf
  split
  · exact le_refl 0
  · exact span_expr_nonneg _ _

/-- The two clamp orders agree: `max 0.5 (min 2 x) = min 2 (max 0.5 x)`. -/
theorem clamp_comm (x : ℚ) : max 0.5 (min 2 x) = min 2 (max 0.5 x) := by
  rcases le_total x (0.5 : ℚ) with h1 | h1 <;> rcases le_total x 2 with h2 | h2 <;>
    simp [min_def, max_def] <;> split_ifs <;> linarith

/-- C8: the estimated-hours computation matches the specified algorithm:
zero span yields the span itself (0), and otherwise, with
`rate = totalCommits / span` (positive commits so the quotient is
defined and positive), the result is
`span * min(2.0, max(0.5, 10 / rate))`. -/
theorem c8_estimate_hours_formula (rs : List HoursRepo) :
    (spanOf rs = 0 → estimate_hours rs = spanOf rs) ∧
    (spanOf rs ≠ 0 → 0 < totalCommitsOf rs →
      estimate_hours rs =
        spanOf rs * min 2 (max 0.5 (10 / ((totalCommitsOf rs : ℚ) / spanOf rs)))) := by
  constructor
  · intro h0
    unfold estimate_hours hoursFromSpan
    rw [h0]
    simp
  · intro hne hpos
    have hspan : 0 < spanOf rs := lt_of_le_of_ne (spanOf_nonneg rs) (Ne.symm hne)
    have hcph : 0 < (totalCommitsOf rs : ℚ) / spanOf rs :=
      div_pos (by exact_mod_cast hpos) hspan
    unfold estimate_hours hoursFromSpan
    rw [if_pos hspan, if_pos hcph, clamp_comm]

/-- Repo list for the C8 witness: ten commits between epoch seconds 0 and
7200, so a 2-hour span at 5 commits per hour. -/
def rsC8 : List HoursRepo := [{ commits := 10, timestamps := some (0, 7200) }]

/-- Witness for C8 at a concrete input with positive span and commits. -/
theorem c8_witness :
    estimate_hours rsC8 =
      spanOf rsC8 * min 2 (max 0.5 (10 / ((totalCommitsOf rsC8 : ℚ) / spanOf rsC8))) :=
  (c8_estimate_hours_formula rsC8).2
    (by norm_num [spanOf, tsList, rsC8]) (by norm_num [totalCommitsOf, rsC8])

/-! ### C10: the division guard of the anomaly check -/

/-- Whether an `Except` is a normal return. -/
def isOkE {ε α : Type} : Except ε α → Bool
  | .ok _ => true
  | .error _ => false

/-- With every repo count at least one, the per-repo anomaly loop never
divides by zero. -/
theorem anomFold_ok :
    ∀ (rs : List (String × RepoData)) (a : CheckResult),
      (∀ p ∈ rs, 1 ≤ p.2.commits) → isOkE (anomRepoFold rs a) = true := by
  intro rs
  induction rs with
  | nil => intro a _; rfl
  | cons p ps ih =>
    intro a hall
    unfold anomRepoFold
    have hp := hall p (List.mem_cons_self p ps)
    have hrest : ∀ q ∈ ps, 1 ≤ q.2.commits :=
      fun q hq => hall q (List.mem_cons_of_mem p hq)
    by_cases hla : p.2.loc_added > 0
    · rw [if_pos hla, if_neg (by omega : ¬p.2.commits = 0)]
      exact ih _ hrest
    · rw [if_neg hla]
      exact ih _ hrest

/-- A repo with `commits == 0` and `loc_added > 0` anywhere in the list
makes the loop raise `ZeroDivisionError`. -/
theorem anomFold_err :
    ∀ (rs : List (String × RepoData)) (a : CheckResult),
      (∃ p ∈ rs, p.2.commits = 0 ∧ 0 < p.2.loc_added) →
      anomRepoFold rs a = .error "division by zero" := by
  intro rs
  induction rs with
  | nil => intro a h; simp at h
  | cons p ps ih =>
    intro a hex
    unfold anomRepoFold
    rcases hex with ⟨q, hq, hc, hl⟩
    rcases List.mem_cons.mp hq with rfl | hmem
    · rw [if_pos hl, if_pos hc]
    · by_cases hla : p.2.loc_added > 0
      · by_cases hc0 : p.2.commits = 0
        · rw [if_pos hla, if_pos hc0]
        · rw [if_pos hla, if_neg hc0]
          exact ih _ ⟨q, hmem, hc, hl⟩
      · rw [if_neg hla]
        exact ih _ ⟨q, hmem, hc, hl⟩

/-- C10: the low-ratio division `loc_added / commits` is guarded only by
`loc_added > 0`.  Consequently (a) whenever every repository entry has
`commits ≥ 1` the anomaly check performs no division by zero and returns
normally, and (b) whenever some entry has `commits == 0` with
`loc_added > 0`, the check raises `ZeroDivisionError`, which
`check_entry` catches, returning status `fail` with the single error
"Fact-checking failed: division by zero" instead of propagating. -/
theorem c10_anomaly_division_guard :
    (∀ (g : GitData) (md : String), (∀ p ∈ g.repos, 1 ≤ p.2.commits) →
      isOkE (check_anomalies g md) = true) ∧
    (∀ (g : GitData) (md : String),
      (∃ p ∈ g.repos, p.2.commits = 0 ∧ 0 < p.2.loc_added) →
      check_anomalies g md = .error "division by zero" ∧
      (check_entry g md).status = "fail" ∧
      (check_entry g md).errors = ["Fact-checking failed: division by zero"]) := by
  constructor
  · intro g md hall
    unfold check_anomalies
    rcases hok : anomRepoFold g.repos {} with e | r
    · have := anomFold_ok g.repos {} hall
      rw [hok] at this
      cases this
    · rfl
  · intro g md hex
    have herr : check_anomalies g md = .error "division by zero" := by
      unfold check_anomalies
      rw [anomFold_err g.repos {} hex]
    have hent : check_entry g md =
        ⟨"fail", ["Fact-checking failed: " ++ "division by zero"], [], []⟩ := by
      unfold check_entry
      rw [herr]
    refine ⟨herr, ?_, ?_⟩
    · rw [hent]
    · rw [hent]
      decide

/-- A day whose only repo has added lines but zero recorded commits. -/
def gZero : GitData := { repos := [("z", { commits := 0, loc_added := 7 })] }

/-- Witness for C10: the all-positive day returns normally; the
zero-commit day fails with the caught division error. -/
theorem c10_witness :
    isOkE (check_anomalies gAnom mdAnom) = true ∧
    (check_entry gZero "").status = "fail" ∧
    (check_entry gZero "").errors = ["Fact-checking failed: division by zero"] :=
  ⟨c10_anomaly_division_guard.1 gAnom mdAnom (by decide),
    (c10_anomaly_division_guard.2 gZero "" (by decide)).2.1,
    (c10_anomaly_division_guard.2 gZero "" (by decide)).2.2⟩

/-! ### C9: the orchestrator boundaries

Both public `run_day` entry points are modelled as functions of the
outcome of each sub-agent call: `.ok` carries the returned dictionary,
`.error` the message of an exception escaping that call.  A stage whose
parameter never gets inspected on a given control path corresponds to a
Python expression that is never evaluated there. -/

/-- `git_data` as inspected by `OrchestratorAgent.run_day`. -/
structure AgentGitOut where
  is_work_day : Bool
  deriving Repr, DecidableEq

/-- The content-generation result as inspected by the agent. -/
structure AgentContentOut where
  status : String
  full_markdown : String
  error : Option String
  deriving Repr, DecidableEq

/-- The fact-checking result as inspected by the agent. -/
structure AgentFactOut where
  status : String
  errors : List String
  deriving Repr, DecidableEq

/-- The quality-assurance result as inspected by the agent. -/
structure AgentQAOut where
  status : String
  issues : List String
  file_path : String
  committed : Bool
  deriving Repr, DecidableEq

/-- The validation result as inspected by the agent. -/
structure AgentValOut where
  valid : Bool
  issues : List String
  deriving Repr, DecidableEq

/-- The commit-agent result as inspected by the agent. -/
structure AgentCommitOut where
  success : Bool
  commit_hash : Option String
  deriving Repr, DecidableEq

/-- The dictionary `OrchestratorAgent.run_day` returns. -/
structure RunDayResult where
  status : String
  entry_path : Option String
  commit_hash : Option String
  error : Option String
  deriving Repr, DecidableEq

/-- Python `"; ".join(...)`. -/
def joinSemi (l : List String) : String := String.intercalate "; " l

/-- The `except`-clause result of `OrchestratorAgent.run_day`. -/
def failedResult (e : String) : RunDayResult := ⟨"failed", none, none, some e⟩

/-- `OrchestratorAgent.run_day` (src/agents/orchestrator.py).  Every
stage call sits inside the surrounding `try`, so a stage raising `e`
short-circuits to the `except` result; `entry_path` is the
`journal_dir / file_path` join. -/
def agent_run_day (journal_dir : String)
    (gitStep : Except String AgentGitOut)
    (contentStep : Except String AgentContentOut)
    (factStep : Except String AgentFactOut)
    (qaStep : Except String AgentQAOut)
    (valStep : Except String AgentValOut)
    (commitStep : Except String AgentCommitOut) : RunDayResult :=
  match gitStep with
  | .error e => failedResult e
  | .ok gd =>
    if gd.is_work_day = false then ⟨"skipped", none, none, none⟩
    else
      match contentStep with
      | .error e => failedResult e
      | .ok c =>
        if c.status ≠ "complete" then
          ⟨"failed", none, none, some (c.error.getD "Content generation failed")⟩
        else
          match factStep with
          | .error e => failedResult e
          | .ok f =>
            if f.status = "fail" then
              ⟨"failed", none, none,
                some ("Fact-checking failed: " ++ joinSemi f.errors)⟩
            else
              match qaStep with
              | .error e => failedResult e
              | .ok q =>
                if q.status ≠ "pass" then
                  ⟨"failed", none, none,
                    some ("Quality assurance failed: " ++ joinSemi q.issues)⟩
                else
                  match valStep with
                  | .error e => failedResult e
                  | .ok v =>
                    if v.valid = false then
                      ⟨"failed", some (journal_dir ++ "/" ++ q.file_path), none,
                        some ("Validation failed: " ++ joinSemi v.issues)⟩
                    else
                      if q.committed then
                        ⟨"success", some (journal_dir ++ "/" ++ q.file_path),
                          some "committed_by_qa_agent", none⟩
                      else
                        match commitStep with
                        | .error e => failedResult e
                        | .ok co =>
                          ⟨"success", some (journal_dir ++ "/" ++ q.file_path),
                            if co.success then co.commit_hash else none, none⟩

/-- The git-analysis stage result of the legacy `Orchestrator`
(`_run_git_analysis` catches its own retry loop; only `is_work_day` is
ever branched on by `run_day`). -/
structure LegacyGitStage where
  status : String
  is_work_day : Bool
  deriving Repr, DecidableEq

/-- The content-generation stage result of the legacy `Orchestrator`. -/
structure LegacyContentStage where
  status : String
  full_markdown : String
  deriving Repr, DecidableEq

/-- The quality-assurance result as read by `_evaluate_qa_result`
(`checks.overall_quality.score`, defaulting to 0). -/
structure LegacyQAStage where
  status : String
  overall_quality : ℕ
  deriving Repr, DecidableEq

/-- The summary dictionary of the legacy `Orchestrator.run_day`, reduced
to the fields the claim is about (the per-stage `errors` appends of the
retry helpers are not modelled; only `final_status` is at issue). -/
structure LegacySummary where
  final_status : String
  is_work_day : Bool
  errors : List String
  deriving Repr, DecidableEq

/-- `Orchestrator._evaluate_qa_result`: a failed QA fails, a score of at
least 7 passes, and otherwise the LLM arbitrates over
accept/reject/retry, an accept overriding the gate. -/
def evaluate_qa_result (qa : LegacyQAStage) (arbContent : String) : Bool :=
  if qa.status = "failed" then false
  else if 7 ≤ qa.overall_quality then true
  else get_opencode_decision arbContent ["accept", "reject", "retry"] = some "accept"

/-- `Orchestrator.run_day` (src/orchestrator.py).  The boundary handler
turns an escaping exception into `final_status = "error"`; a
non-work-day (regardless of the git stage's own status) yields
`"no_work"`; a content stage that did not complete keeps the *initial*
`final_status = "skipped"` while `_handle_failure` appends its error; a
failing QA evaluation yields `"quality_check_failed"`; otherwise
`"success"`, with a commit failure only appending an error. -/
def orchestrator_run_day (ensureStep : Except String Unit)
    (gitStage : Except String LegacyGitStage)
    (contentStage : Except String LegacyContentStage)
    (factStage : Except String Unit)
    (qaStage : Except String LegacyQAStage)
    (arbContent : String) (commitErr : Option String) : LegacySummary :=
  match ensureStep with
  | .error e => ⟨"error", false, ["Orchestrator failed: " ++ e]⟩
  | .ok _ =>
    match gitStage with
    | .error e => ⟨"error", false, ["Orchestrator failed: " ++ e]⟩
    | .ok gs =>
      if gs.is_work_day = false then ⟨"no_work", false, []⟩
      else
        match contentStage with
        | .error e => ⟨"error", true, ["Orchestrator failed: " ++ e]⟩
        | .ok cs =>
          if cs.status ≠ "complete" then
            ⟨"skipped", true, ["content_generation failed"]⟩
          else
            match factStage, qaStage with
            | .error e, _ => ⟨"error", true, ["Orchestrator failed: " ++ e]⟩
            | .ok _, .error e => ⟨"error", true, ["Orchestrator failed: " ++ e]⟩
            | .ok _, .ok qa =>
              if evaluate_qa_result qa arbContent then
                ⟨"success", true,
                  match commitErr with
                  | some m => ["Commit error: " ++ m]
                  | none => []⟩
              else
                ⟨"quality_check_failed", true,
                  ["Quality check failed - needs improvement"]⟩

/-- C9 counterexample.  The claim: *each* public `run_day` entry point
returns a status distinguishing exactly success | skipped | failed, with
exceptions converted to `{status: failed, ...}`.  The legacy
`Orchestrator.run_day` instead reports a no-work day as `"no_work"` and
converts exceptions to `"error"`, neither of which is in the claimed
vocabulary. -/
theorem c9_counterexample :
    (orchestrator_run_day (.ok ()) (.ok ⟨"complete", false⟩) (.ok ⟨"complete", ""⟩)
        (.ok ()) (.ok ⟨"passed", 9⟩) "" none).final_status = "no_work" ∧
    ("no_work" ∈ (["success", "skipped", "failed"] : List String)) = False ∧
    (orchestrator_run_day (.error "boom") (.ok ⟨"complete", true⟩)
        (.ok ⟨"complete", ""⟩) (.ok ()) (.ok ⟨"passed", 9⟩) "" none).final_status =
      "error" ∧
    ("error" ∈ (["success", "skipped", "failed"] : List String)) = False := by
  refine ⟨rfl, by simp, rfl, by simp⟩

/-- C9 amended, part of the statement: `OrchestratorAgent.run_day` obeys
the claim — its status is always exactly one of success | skipped |
failed, and an exception escaping any executed stage is caught at the
boundary and converted to `{status: "failed", error: <message>}` — while
the legacy `Orchestrator.run_day` reports `final_status` in
{skipped, no_work, success, quality_check_failed, error}, exceptions
mapping to `"error"` (with the message in `errors`), not `"failed"`. -/
theorem c9_run_day_boundaries :
    (∀ (jd : String) (g : Except String AgentGitOut)
      (c : Except String AgentContentOut) (f : Except String AgentFactOut)
      (q : Except String AgentQAOut) (v : Except String AgentValOut)
      (co : Except String AgentCommitOut),
      (agent_run_day jd g c f q v co).status ∈
        (["success", "skipped", "failed"] : List String) ∧
      (∀ e, g = .error e → agent_run_day jd g c f q v co = failedResult e) ∧
      (∀ e gd, g = .ok gd → gd.is_work_day = true → c = .error e →
        agent_run_day jd g c f q v co = failedResult e) ∧
      (∀ e gd cc, g = .ok gd → gd.is_work_day = true → c = .ok cc →
        cc.status = "complete" → f = .error e →
        agent_run_day jd g c f q v co = failedResult e) ∧
      (∀ e gd cc ff, g = .ok gd → gd.is_work_day = true → c = .ok cc →
        cc.status = "complete" → f = .ok ff → ff.status ≠ "fail" → q = .error e →
        agent_run_day jd g c f q v co = failedResult e) ∧
      (∀ e gd cc ff qq, g = .ok gd → gd.is_work_day = true → c = .ok cc →
        cc.status = "complete" → f = .ok ff → ff.status ≠ "fail" → q = .ok qq →
        qq.status = "pass" → v = .error e →
        agent_run_day jd g c f q v co = failedResult e) ∧
      (∀ e gd cc ff qq vv, g = .ok gd → gd.is_work_day = true → c = .ok cc →
        cc.status = "complete" → f = .ok ff → ff.status ≠ "fail" → q = .ok qq →
        qq.status = "pass" → v = .ok vv → vv.valid = true → qq.committed = false →
        co = .error e → agent_run_day jd g c f q v co = failedResult e)) ∧
    (∀ (en : Except String Unit) (gs : Except String LegacyGitStage)
      (cs : Except String LegacyContentStage) (fs : Except String Unit)
      (qs : Except String LegacyQAStage) (arb : String) (ce : Option String),
      (orchestrator_run_day en gs cs fs qs arb ce).final_status ∈
        (["skipped", "no_work", "success", "quality_check_failed", "error"] :
          List String) ∧
      (∀ e, en = .ok () → gs = .error e →
        orchestrator_run_day en gs cs fs qs arb ce =
          ⟨"error", false, ["Orchestrator failed: " ++ e]⟩)) := by
  constructor
  · intro jd g c f q v co
    refine ⟨?_, ?_, ?_, ?_, ?_, ?_, ?_⟩
    · unfold agent_run_day failedResult
      repeat' split
      all_goals simp
    · intro e hg
      simp [agent_run_day, hg, failedResult]
    · intro e gd hg hw hc
      simp [agent_run_day, hg, hw, hc, failedResult]
    · intro e gd cc hg hw hc hcs hf
      simp [agent_run_day, hg, hw, hc, hcs, hf, failedResult]
    · intro e gd cc ff hg hw hc hcs hf hfs hq
      simp [agent_run_day, hg, hw, hc, hcs, hf, hfs, hq, failedResult]
    · intro e gd cc ff qq hg hw hc hcs hf hfs hq hqs hv
      simp [agent_run_day, hg, hw, hc, hcs, hf, hfs, hq, hqs, hv, failedResult]
    · intro e gd cc ff qq vv hg hw hc hcs hf hfs hq hqs hv hvv hqc hco
      simp [agent_run_day, hg, hw, hc, hcs, hf, hfs, hq, hqs, hv, hvv, hqc, hco,
        failedResult]
  · intro en gs cs fs qs arb ce
    refine ⟨?_, ?_⟩
    · unfold orchestrator_run_day
      repeat' split
      all_goals simp
    · intro e hen hgs
      simp [orchestrator_run_day, hen, hgs]

/-- Witness for C9 at concrete inputs: a raised git-analysis exception
becomes `{status: "failed", error: "disk on fire"}`, and a no-work day is
`"skipped"`. -/
theorem c9_witness :
    agent_run_day "j" (.error "disk on fire") (.ok ⟨"complete", "", none⟩)
        (.ok ⟨"pass", []⟩) (.ok ⟨"pass", [], "p", true⟩) (.ok ⟨true, []⟩)
        (.ok ⟨true, none⟩) = failedResult "disk on fire" ∧
    (agent_run_day "j" (.ok ⟨false⟩) (.ok ⟨"complete", "", none⟩)
        (.ok ⟨"pass", []⟩) (.ok ⟨"pass", [], "p", true⟩) (.ok ⟨true, []⟩)
        (.ok ⟨true, none⟩)).status ∈ (["success", "skipped", "failed"] : List String) :=
  ⟨((c9_run_day_boundaries.1 "j" (.error "disk on fire") (.ok ⟨"complete", "", none⟩)
      (.ok ⟨"pass", []⟩) (.ok ⟨"pass", [], "p", true⟩) (.ok ⟨true, []⟩)
      (.ok ⟨true, none⟩)).2.1 "disk on fire" rfl),
    (c9_run_day_boundaries.1 "j" (.ok ⟨false⟩) (.ok ⟨"complete", "", none⟩)
      (.ok ⟨"pass", []⟩) (.ok ⟨"pass", [], "p", true⟩) (.ok ⟨true, []⟩)
      (.ok ⟨true, none⟩)).1⟩

end Journal
